import Mathlib

/-!
Verification of the job/orchestration core of the geovera-image-generator
repository (`src/modal_app.py`), as a shallow embedding in Lean 4.

Modelling conventions:
* Python dict rows become Lean structures; the Supabase `api_budget` table for
  a single calendar date becomes a function from capability name to an optional
  row, plus an oracle for the most recent prior day's `daily_limit`.
* External, pay-per-call collaborators (LLM backends, search tools, the Gemini
  quality checker, the diffusion backend) are oracles carried in environment
  structures; an `Option`/sum result models a raised exception.
* Machine floats used for strengths, costs and temperatures are represented by
  exact rationals; wall-clock timing fields (`time`, `cost_usd` derived from
  elapsed seconds, formatted timing text) are external real-time values and are
  elided from the embedded records.
* All `consume` claims are settled for a reachable store, so the
  `except: return True` fail-open arm of `_budget_consume` never fires and is
  not part of the embedded happy path.
-/

/-- `"sep".join(parts)` as in Python: empty for `[]`, no trailing separator. -/
def joinSep (sep : String) : List String → String
  | [] => ""
  | [x] => x
  | x :: y :: xs => x ++ sep ++ joinSep sep (y :: xs)

/-- Prefix test on character lists. -/
def listPrefixOf : List Char → List Char → Bool
  | [], _ => true
  | _ :: _, [] => false
  | a :: as, b :: bs => a = b && listPrefixOf as bs

/-- Substring occurrence on character lists. -/
def listContainsSub (pat : List Char) : List Char → Bool
  | [] => pat.isEmpty
  | c :: cs => listPrefixOf pat (c :: cs) || listContainsSub pat cs

/-- Python's `pat in s` substring test, on the underlying character lists. -/
def strContains (s pat : String) : Bool :=
  listContainsSub pat.data s.data

/-- Python's `s.lower()`, character by character (the model identifiers this
is applied to are ASCII). -/
def strToLower (s : String) : String :=
  ⟨s.data.map Char.toLower⟩

/-- Python's `s.upper()`, character by character. -/
def strToUpper (s : String) : String :=
  ⟨s.data.map Char.toUpper⟩

/-- Python's `s.strip()`: drop leading and trailing whitespace. -/
def strTrim (s : String) : String :=
  ⟨((s.data.dropWhile Char.isWhitespace).reverse.dropWhile Char.isWhitespace).reverse⟩

/-- One row of the `api_budget` table for a given `(api_name, budget_date)`. -/
structure BudgetRecord where
  daily_limit : Nat
  calls_today : Nat
  cost_usd : ℚ
deriving DecidableEq, Repr

/-- The budget store visible to `_budget_consume` for a fixed calendar date:
today's row per capability name, and the most recent prior day's
`daily_limit` per capability (the seeding query). -/
structure BudgetStore where
  rows : String → Option BudgetRecord
  prevLimit : String → Option Nat

/-- `COST_PER_CALL` table from the source, with its `.get(..., 0.001)`
default. -/
def COST_PER_CALL (api_name : String) : ℚ :=
  if api_name = "openai_gpt4o" then 1/100
  else if api_name = "openai_gpt4o_mini" then 1/1000
  else if api_name = "anthropic_opus" then 1/50
  else if api_name = "anthropic_sonnet" then 1/250
  else if api_name = "anthropic_haiku" then 1/1000
  else if api_name = "perplexity_sonar_pro" then 1/200
  else if api_name = "groq_llama" then 0
  else if api_name = "serpapi" then 1/500
  else if api_name = "firecrawl" then 1/500
  else if api_name = "apify" then 1/200
  else 1/1000

/-- Replace today's row for one capability, leaving every other key alone
(the effect of the `insert`/`update` statements keyed by
`(api_name, budget_date)`). -/
def setRow (sb : BudgetStore) (name : String) (r : BudgetRecord) : BudgetStore :=
  { sb with rows := fun n => if n = name then some r else sb.rows n }

/-- `_budget_consume(sb, api_name)` on a reachable store. Returns the
allowed/denied flag and the updated store. Absent row: seed from the prior
day's limit (default 50) counting this call; exhausted row: deny without
mutation; otherwise increment and add the per-call cost. -/
def _budget_consume (sb : BudgetStore) (api_name : String) : Bool × BudgetStore :=
  let cost := COST_PER_CALL api_name
  match sb.rows api_name with
  | none =>
      let limit := (sb.prevLimit api_name).getD 50
      (true, setRow sb api_name ⟨limit, 1, cost⟩)
  | some row =>
      if row.daily_limit ≤ row.calls_today then
        (false, sb)
      else
        (true, setRow sb api_name ⟨row.daily_limit, row.calls_today + 1, row.cost_usd + cost⟩)

/-- A sequence of `consume` calls, threading the store. -/
def consumeSeq (sb : BudgetStore) (caps : List String) : BudgetStore :=
  caps.foldl (fun s c => (_budget_consume s c).2) sb

/-- The row for `cap` exists and respects its daily limit. -/
def rowWithinLimit (sb : BudgetStore) (cap : String) : Prop :=
  ∃ r, sb.rows cap = some r ∧ r.calls_today ≤ r.daily_limit

lemma rows_setRow_ne (sb : BudgetStore) (name cap : String) (r : BudgetRecord)
    (h : cap ≠ name) : (setRow sb name r).rows cap = sb.rows cap := by
  simp [setRow, h]

lemma rows_setRow_self (sb : BudgetStore) (name : String) (r : BudgetRecord) :
    (setRow sb name r).rows name = some r := by
  simp [setRow]

/-- One `consume` call (for any capability) preserves the within-limit
invariant of an existing row. -/
lemma rowWithinLimit_consume (sb : BudgetStore) (cap cap2 : String)
    (h : rowWithinLimit sb cap) : rowWithinLimit (_budget_consume sb cap2).2 cap := by
  obtain ⟨r, hrow, hle⟩ := h
  by_cases hc : cap = cap2
  · subst hc
    unfold _budget_consume
    rw [hrow]
    by_cases hfull : r.daily_limit ≤ r.calls_today
    · simp only [hfull, if_true]
      exact ⟨r, hrow, hle⟩
    · simp only [hfull, if_false]
      refine ⟨⟨r.daily_limit, r.calls_today + 1, r.cost_usd + COST_PER_CALL cap⟩,
        rows_setRow_self _ _ _, ?_⟩
      show r.calls_today + 1 ≤ r.daily_limit
      omega
  · unfold _budget_consume
    cases hrow2 : sb.rows cap2 with
    | none =>
        simp only [hrow2]
        exact ⟨r, by rw [rows_setRow_ne _ _ _ _ hc]; exact hrow, hle⟩
    | some r2 =>
        simp only [hrow2]
        by_cases hfull : r2.daily_limit ≤ r2.calls_today
        · simp only [hfull, if_true]
          exact ⟨r, hrow, hle⟩
        · simp only [hfull, if_false]
          exact ⟨r, by rw [rows_setRow_ne _ _ _ _ hc]; exact hrow, hle⟩

lemma rowWithinLimit_consumeSeq (caps : List String) (sb : BudgetStore) (cap : String)
    (h : rowWithinLimit sb cap) : rowWithinLimit (consumeSeq sb caps) cap := by
  induction caps generalizing sb with
  | nil => exact h
  | cons c cs ih =>
      exact ih _ (rowWithinLimit_consume sb cap c h)

/-- Claim C2: against an existing budget record with a reachable store, a
`consume` call made when `calls_today ≥ daily_limit` returns `false` and
leaves the store untouched (no increment, no cost added); and starting from a
record with `calls_today ≤ daily_limit`, no sequence of `consume` calls ever
drives `calls_today` above `daily_limit`. -/
theorem budget_consume_limit_enforced (sb : BudgetStore) (cap : String) (r : BudgetRecord)
    (hrow : sb.rows cap = some r) :
    (r.daily_limit ≤ r.calls_today → _budget_consume sb cap = (false, sb)) ∧
    (r.calls_today ≤ r.daily_limit →
      ∀ caps : List String, ∀ r2 : BudgetRecord,
        (consumeSeq sb caps).rows cap = some r2 → r2.calls_today ≤ r2.daily_limit) := by
  constructor
  · intro hfull
    unfold _budget_consume
    rw [hrow]
    simp [hfull]
  · intro hle caps r2 hrow2
    obtain ⟨r3, hrow3, hle3⟩ := rowWithinLimit_consumeSeq caps sb cap ⟨r, hrow, hle⟩
    rw [hrow3] at hrow2
    cases hrow2
    exact hle3

/-- A concrete exhausted store: capability `serpapi` with `daily_limit = 5`
and five calls already recorded today. -/
def sbExhausted : BudgetStore :=
  { rows := fun n => if n = "serpapi" then some ⟨5, 5, 1/100⟩ else none,
    prevLimit := fun _ => none }

/-- Witness for C2: with `daily_limit = 5` and 5 prior consumptions, a 6th
`consume("serpapi")` returns `false` and the store is unchanged, and after two
further consume calls the row still respects its limit. -/
theorem budget_consume_limit_enforced_witness :
    _budget_consume sbExhausted "serpapi" = (false, sbExhausted) ∧
    ((consumeSeq sbExhausted ["serpapi", "serpapi"]).rows "serpapi" = some ⟨5, 5, 1/100⟩ →
      (5 : Nat) ≤ 5) := by
  have h := budget_consume_limit_enforced sbExhausted "serpapi" ⟨5, 5, 1/100⟩ (by rfl)
  exact ⟨h.1 (by decide), fun hrow =>
    h.2 (by decide) ["serpapi", "serpapi"] ⟨5, 5, 1/100⟩ hrow⟩

/-- `LLMProviderConfig` pydantic model (provider literal widened to `String`;
`temperature` as an exact rational). -/
structure LLMProviderConfig where
  provider : String := "openai"
  model : String := "gpt-4o-mini"
  api_key : Option String := none
  endpoint : Option String := none
  temperature : ℚ := 3/4
  max_tokens : Nat := 1024
deriving DecidableEq, Repr

/-- One `ROLE_LLM_MAP` entry: `(provider, model)` pairs for primary and
optional secondary. -/
structure RoleEntry where
  primary : String × String
  secondary : Option (String × String)
deriving DecidableEq, Repr

/-- `ROLE_LLM_MAP` from the source, as a lookup function. -/
def ROLE_LLM_MAP (role : String) : Option RoleEntry :=
  if role = "ceo" then some ⟨("openai", "gpt-4o"), some ("anthropic", "claude-opus-4-5")⟩
  else if role = "cmo" then some ⟨("perplexity", "sonar-pro"), none⟩
  else if role = "cto" then some ⟨("anthropic", "claude-opus-4-5"), none⟩
  else if role = "developer" then some ⟨("anthropic", "claude-sonnet-4-5"), none⟩
  else if role = "engineer" then some ⟨("anthropic", "claude-sonnet-4-5"), none⟩
  else if role = "sales" then some ⟨("openai", "gpt-4o"), some ("anthropic", "claude-sonnet-4-5")⟩
  else if role = "creator" then some ⟨("openai", "gpt-4o-mini"), some ("anthropic", "claude-sonnet-4-5")⟩
  else if role = "analyst" then some ⟨("openai", "gpt-4o"), some ("anthropic", "claude-sonnet-4-5")⟩
  else if role = "host" then some ⟨("openai", "gpt-4o-mini"), some ("anthropic", "claude-sonnet-4-5")⟩
  else if role = "designer" then some ⟨("openai", "gpt-4o-mini"), some ("anthropic", "claude-sonnet-4-5")⟩
  else if role = "support" then some ⟨("openai", "gpt-4o-mini"), some ("anthropic", "claude-sonnet-4-5")⟩
  else none

/-- `DEFAULT_LLM` from the source. -/
def DEFAULT_LLM : LLMProviderConfig := { provider := "openai", model := "gpt-4o-mini" }

/-- `FALLBACK_LLM` chain from the source. -/
def FALLBACK_LLM (api_name : String) : Option LLMProviderConfig :=
  if api_name = "openai_gpt4o" then some { provider := "openai", model := "gpt-4o-mini" }
  else if api_name = "anthropic_opus" then some { provider := "anthropic", model := "claude-haiku-4-5" }
  else if api_name = "anthropic_sonnet" then some { provider := "anthropic", model := "claude-haiku-4-5" }
  else if api_name = "perplexity_sonar_pro" then some { provider := "openai", model := "gpt-4o-mini" }
  else none

/-- `_api_key_name(cfg)`: map a provider config to its `api_budget` row name,
via lowercase substring checks on the model id, falling through to
`"openai_gpt4o_mini"`. -/
def _api_key_name (cfg : LLMProviderConfig) : String :=
  let m := strToLower cfg.model
  if cfg.provider = "openai" then
    if strContains m "gpt-4o-mini" then "openai_gpt4o_mini"
    else if strContains m "gpt-4o" then "openai_gpt4o"
    else "openai_gpt4o_mini"
  else if cfg.provider = "anthropic" then
    if strContains m "opus" then "anthropic_opus"
    else if strContains m "haiku" then "anthropic_haiku"
    else "anthropic_sonnet"
  else if cfg.provider = "perplexity" then "perplexity_sonar_pro"
  else if cfg.provider = "groq" then "groq_llama"
  else "openai_gpt4o_mini"

/-- A character row as read by the dialogue/router code: flat fields with the
`personality.roles` list and optional `personality.agent_system_prompt`
lifted out, and `knowledge_notes`. Absent dict keys are `none` / `[]`. -/
structure Character where
  id : String := ""
  name : String := ""
  age : String := ""
  ethnicity : String := ""
  gender : Option String := none
  roles : List String := []
  agent_system_prompt : Option String := none
  knowledge_notes : List String := []
deriving DecidableEq, Repr

/-- Base role resolution result (`resolve_role_llm`). -/
structure RoleBase where
  primary : LLMProviderConfig
  secondary : Option LLMProviderConfig
  role : String
deriving DecidableEq, Repr

/-- Budget-aware resolution result (`resolve_role_llm_with_budget`). -/
structure RoleCfg where
  primary : LLMProviderConfig
  secondary : Option LLMProviderConfig
  role : String
  fallback_used : Bool
deriving DecidableEq, Repr

/-- The `for r in roles: if r in ROLE_LLM_MAP` scan: first recognized role
with its map entry. -/
def rolePick : List String → Option (String × RoleEntry)
  | [] => none
  | r :: rest =>
      match ROLE_LLM_MAP r with
      | some e => some (r, e)
      | none => rolePick rest

/-- Build an `LLMProviderConfig` from a `(provider, model)` pair with the
pydantic defaults for the other fields. -/
def cfgOfPair (p : String × String) : LLMProviderConfig :=
  { provider := p.1, model := p.2 }

/-- `resolve_role_llm(char)`: primary/secondary/role from the first
recognized role, else the system default. -/
def resolve_role_llm (char : Character) : RoleBase :=
  match rolePick char.roles with
  | some (r, e) => { primary := cfgOfPair e.primary, secondary := e.secondary.map cfgOfPair, role := r }
  | none => { primary := DEFAULT_LLM, secondary := none, role := "default" }

/-- `resolve_role_llm_with_budget(char, sb)`: consume the primary capability;
if denied and a fallback is configured, consume the fallback best-effort and
return it flagged; if denied with no fallback, return the primary unflagged. -/
def resolve_role_llm_with_budget (char : Character) (sb : BudgetStore) : RoleCfg × BudgetStore :=
  let base := resolve_role_llm char
  let primary_key := _api_key_name base.primary
  let consumed := _budget_consume sb primary_key
  if consumed.1 then
    ({ primary := base.primary, secondary := base.secondary, role := base.role,
       fallback_used := false }, consumed.2)
  else
    match FALLBACK_LLM primary_key with
    | some fallback_cfg =>
        let fb_key := _api_key_name fallback_cfg
        let consumed2 := _budget_consume consumed.2 fb_key
        ({ primary := fallback_cfg, secondary := none, role := base.role,
           fallback_used := true }, consumed2.2)
    | none =>
        ({ primary := base.primary, secondary := base.secondary, role := base.role,
           fallback_used := false }, consumed.2)

/-- Claim C7: with no caller override, when `consume` of the primary
capability is denied, `resolve_role_llm_with_budget` returns the configured
fallback flagged `fallback_used = true` (after a best-effort consume of the
fallback's own budget, whose outcome is not examined), and when no fallback is
configured it returns the primary configuration with `fallback_used = false`. -/
theorem resolve_role_fallback_behavior (char : Character) (sb : BudgetStore)
    (hdeny : (_budget_consume sb (_api_key_name (resolve_role_llm char).primary)).1 = false) :
    (∀ fb, FALLBACK_LLM (_api_key_name (resolve_role_llm char).primary) = some fb →
      resolve_role_llm_with_budget char sb =
        ({ primary := fb, secondary := none, role := (resolve_role_llm char).role,
           fallback_used := true },
         (_budget_consume
            (_budget_consume sb (_api_key_name (resolve_role_llm char).primary)).2
            (_api_key_name fb)).2)) ∧
    (FALLBACK_LLM (_api_key_name (resolve_role_llm char).primary) = none →
      resolve_role_llm_with_budget char sb =
        ({ primary := (resolve_role_llm char).primary,
           secondary := (resolve_role_llm char).secondary,
           role := (resolve_role_llm char).role, fallback_used := false },
         (_budget_consume sb (_api_key_name (resolve_role_llm char).primary)).2)) := by
  constructor
  · intro fb hfb
    unfold resolve_role_llm_with_budget
    simp only [hdeny, Bool.false_eq_true, if_false, hfb]
  · intro hnofb
    unfold resolve_role_llm_with_budget
    simp only [hdeny, Bool.false_eq_true, if_false, hnofb]

/-- A CEO character used in witnesses. -/
def ceoChar : Character := { id := "c1", name := "Alice", roles := ["ceo"] }

/-- A store where the CEO primary capability (`openai_gpt4o`) is exhausted. -/
def sbGpt4oFull : BudgetStore :=
  { rows := fun n => if n = "openai_gpt4o" then some ⟨3, 3, 3/100⟩ else none,
    prevLimit := fun _ => none }

/-- Witness for C7: with `openai_gpt4o` exhausted, resolving the CEO role
returns the configured `gpt-4o-mini` fallback with `fallback_used = true`. -/
theorem resolve_role_fallback_behavior_witness :
    (resolve_role_llm_with_budget ceoChar sbGpt4oFull).1 =
      { primary := { provider := "openai", model := "gpt-4o-mini" }, secondary := none,
        role := "ceo", fallback_used := true } := by
  have h := (resolve_role_fallback_behavior ceoChar sbGpt4oFull (by decide)).1
    { provider := "openai", model := "gpt-4o-mini" } (by rfl)
  rw [h]
  rfl


/-- Python character-slicing `s[:n]`, on the underlying character list. -/
def strTake (s : String) (n : Nat) : String :=
  ⟨s.data.take n⟩

/-- LangChain message, as used by the dialogue/router code. -/
inductive LCMessage
  | system (content : String)
  | human (content : String)
deriving DecidableEq, Repr

/-- `.content` accessor. -/
def LCMessage.content : LCMessage → String
  | .system c => c
  | .human c => c

/-- `isinstance(m, HumanMessage)`. -/
def LCMessage.isHuman : LCMessage → Bool
  | .human _ => true
  | _ => false

/-- Helper for `_userQuery`: scan an already-reversed message list for the
first human message. -/
def firstHumanContent : List LCMessage → String
  | [] => ""
  | .human c :: _ => c
  | _ :: rest => firstHumanContent rest

/-- The `for m in reversed(lc_messages): if isinstance(m, HumanMessage)` scan
of `_cmo_enrich`: content of the last human message, else `""`. -/
def _userQuery (msgs : List LCMessage) : String :=
  firstHumanContent msgs.reverse

/-- External collaborators of the router/dialogue core: the LLM backend (per
provider config), search-tool credentials read from the environment, and the
search tools themselves. A `none` response models a raised exception (the
`except: pass` arms); result tuples carry only the fields the code reads. -/
structure AgentEnv where
  llm : LLMProviderConfig → List LCMessage → String
  serpapi_key : String := ""
  firecrawl_key : String := ""
  apify_key : String := ""
  serp_response : String → Option (List (String × String × String)) := fun _ => none
  firecrawl_response : String → Option (List (String × String)) := fun _ => none
  apify_response : String → Option (List (List (String × String × String))) := fun _ => none

/-- `_budget_consume(sb, name) if sb else True`: the pattern used whenever the
store handle may be `None`. -/
def consumeOpt (sb : Option BudgetStore) (name : String) : Bool × Option BudgetStore :=
  match sb with
  | none => (true, none)
  | some s => ((_budget_consume s name).1, some (_budget_consume s name).2)

/-- The SerpAPI block of `_cmo_enrich`: context contributed when the key is
present, the query nonempty and the budget allowed; an exception or an empty
result list contributes nothing. -/
def serpBlock (env : AgentEnv) (user_query : String) (allowed : Bool) : String :=
  if env.serpapi_key ≠ "" ∧ user_query ≠ "" ∧ allowed = true then
    match env.serp_response user_query with
    | none => ""
    | some organic =>
        let results := organic.take 5
        if results ≠ [] then
          "## Google Search Results\n" ++
            String.join (results.map fun r => "- [" ++ r.1 ++ "](" ++ r.2.1 ++ "): " ++ r.2.2 ++ "\n")
        else ""
  else ""

/-- The Firecrawl block of `_cmo_enrich`. -/
def firecrawlBlock (env : AgentEnv) (user_query : String) (allowed : Bool) : String :=
  if env.firecrawl_key ≠ "" ∧ user_query ≠ "" ∧ allowed = true then
    match env.firecrawl_response user_query with
    | none => ""
    | some data =>
        let pages := data.take 3
        if pages ≠ [] then
          "\n## Web Content (Firecrawl)\n" ++
            String.join (pages.map fun p => "### " ++ p.1 ++ "\n" ++ strTake p.2 800 ++ "\n\n")
        else ""
  else ""

/-- The Apify block of `_cmo_enrich`: items' `organicResults` lists are
concatenated then truncated to 5. -/
def apifyBlock (env : AgentEnv) (user_query : String) (allowed : Bool) : String :=
  if env.apify_key ≠ "" ∧ user_query ≠ "" ∧ allowed = true then
    match env.apify_response user_query with
    | none => ""
    | some items =>
        let organic := items.flatten.take 5
        if organic ≠ [] then
          "\n## Deep Research (Apify)\n" ++
            String.join (organic.map fun r => "- [" ++ r.1 ++ "](" ++ r.2.1 ++ "): " ++ r.2.2 ++ "\n")
        else ""
  else ""

/-- `_cmo_enrich(lc_messages, sb)`: consume the three search-tool budgets in
priority order (each consume happens before that tool's credential check),
build the search context, and inject it into the system message. Returns the
enriched message list and the threaded store. -/
def _cmo_enrich (env : AgentEnv) (lc_messages : List LCMessage) (sb : Option BudgetStore) :
    List LCMessage × Option BudgetStore :=
  let user_query := _userQuery lc_messages
  let serp := consumeOpt sb "serpapi"
  let ctx1 := serpBlock env user_query serp.1
  let fc := consumeOpt serp.2 "firecrawl"
  let ctx2 := ctx1 ++ firecrawlBlock env user_query fc.1
  let ap := consumeOpt fc.2 "apify"
  let ctx3 := ctx2 ++ apifyBlock env user_query ap.1
  let out :=
    if ctx3 = "" then lc_messages
    else
      match lc_messages with
      | .system c :: rest =>
          .system (c ++ "\n\n## Live Research Context (auto-retrieved)\n" ++ ctx3 ++ "\n" ++
            "Use this research to ground your response in current facts and data.") :: rest
      | _ =>
          .system ("## Live Research Context\n" ++ ctx3 ++ "\nUse this to ground your response.") ::
            lc_messages
  (out, ap.2)

/-- A `consume` for a different capability leaves this capability's row
unchanged. -/
lemma rows_consume_ne (sb : BudgetStore) (cap cap2 : String) (h : cap ≠ cap2) :
    ((_budget_consume sb cap2).2).rows cap = sb.rows cap := by
  unfold _budget_consume
  cases hrow : sb.rows cap2 with
  | none => exact rows_setRow_ne _ _ _ _ h
  | some r =>
      by_cases hfull : r.daily_limit ≤ r.calls_today
      · simp only [hfull, if_true]
      · simp only [hfull, if_false]
        exact rows_setRow_ne _ _ _ _ h

/-- Claim C10: on every CMO enrichment call with a reachable store, the
serpapi, firecrawl and apify budgets are consumed unconditionally and in that
order — before each tool's credential check — so with the serpapi key absent
but its budget under the limit, `calls_today` is still incremented. -/
theorem cmo_enrich_consumes_before_credential (env : AgentEnv) (msgs : List LCMessage)
    (store : BudgetStore) (r : BudgetRecord)
    (hrow : store.rows "serpapi" = some r)
    (hunder : r.calls_today < r.daily_limit)
    (hnokey : env.serpapi_key = "") :
    (_cmo_enrich env msgs (some store)).2 =
      some (_budget_consume
              (_budget_consume ((_budget_consume store "serpapi").2) "firecrawl").2
              "apify").2 ∧
    ((_budget_consume
        (_budget_consume ((_budget_consume store "serpapi").2) "firecrawl").2
        "apify").2).rows "serpapi" =
      some ⟨r.daily_limit, r.calls_today + 1, r.cost_usd + 1/500⟩ := by
  constructor
  · rfl
  · rw [rows_consume_ne _ _ _ (by decide), rows_consume_ne _ _ _ (by decide)]
    unfold _budget_consume
    rw [hrow]
    have hfull : ¬ r.daily_limit ≤ r.calls_today := by omega
    simp only [hfull, if_false]
    rw [rows_setRow_self]
    have hc : COST_PER_CALL "serpapi" = 1/500 := rfl
    rw [hc]

/-- A fresh one-row store for the C10 witness: serpapi has 2 of 10 calls
used. -/
def sbSerp : BudgetStore :=
  { rows := fun n => if n = "serpapi" then some ⟨10, 2, 1/250⟩ else none,
    prevLimit := fun _ => none }

/-- A keyless environment (all search credentials absent). -/
def envNoKeys : AgentEnv := { llm := fun _ _ => "" }

/-- Witness for C10: enriching with no serpapi key still increments the
serpapi row from 2 to 3 calls. -/
theorem cmo_enrich_consumes_before_credential_witness :
    ((_cmo_enrich envNoKeys [LCMessage.human "q"] (some sbSerp)).2 =
      some (_budget_consume
              (_budget_consume ((_budget_consume sbSerp "serpapi").2) "firecrawl").2
              "apify").2) ∧
    ((_budget_consume
        (_budget_consume ((_budget_consume sbSerp "serpapi").2) "firecrawl").2
        "apify").2).rows "serpapi" = some ⟨10, 3, 1/250 + 1/500⟩ :=
  cmo_enrich_consumes_before_credential envNoKeys [LCMessage.human "q"] sbSerp
    ⟨10, 2, 1/250⟩ (by rfl) (by decide) (by rfl)

/-- `invoke_with_role(char, lc_messages, caller_llm, sb)`: caller override
bypasses everything; otherwise resolve via the budget governor; CMO gets
search enrichment and a single call; a fallback or a missing secondary means a
single call; otherwise ensemble with the secondary budget consumed first and
`[secondary-skipped]` labelling when it is denied. Returns
`((reply, llm_label), store)`. -/
def invoke_with_role (env : AgentEnv) (char : Character) (lc_messages : List LCMessage)
    (caller_llm : Option LLMProviderConfig) (sb : Option BudgetStore) :
    (String × String) × Option BudgetStore :=
  match caller_llm with
  | some cfg => ((strTrim (env.llm cfg lc_messages), cfg.provider ++ "/" ++ cfg.model), sb)
  | none =>
    let rc : RoleCfg × Option BudgetStore :=
      match sb with
      | some s =>
          ((resolve_role_llm_with_budget char s).1, some (resolve_role_llm_with_budget char s).2)
      | none =>
          let b := resolve_role_llm char
          ({ primary := b.primary, secondary := b.secondary, role := b.role,
             fallback_used := false }, none)
    let role_cfg := rc.1
    let primary_cfg := role_cfg.primary
    if role_cfg.role = "cmo" then
      let enr := _cmo_enrich env lc_messages rc.2
      let reply := strTrim (env.llm primary_cfg enr.1)
      let label :=
        if role_cfg.fallback_used then
          primary_cfg.provider ++ "/" ++ primary_cfg.model ++ "+search[fallback]"
        else "perplexity/" ++ primary_cfg.model ++ "+search"
      ((reply, label), enr.2)
    else
      match role_cfg.secondary with
      | none =>
          let reply := strTrim (env.llm primary_cfg lc_messages)
          let suffix := if role_cfg.fallback_used then "[fallback]" else ""
          ((reply, primary_cfg.provider ++ "/" ++ primary_cfg.model ++ suffix), rc.2)
      | some secondary_cfg =>
          if role_cfg.fallback_used then
            ((strTrim (env.llm primary_cfg lc_messages),
               primary_cfg.provider ++ "/" ++ primary_cfg.model ++ "[fallback]"), rc.2)
          else
            let sec := consumeOpt rc.2 (_api_key_name secondary_cfg)
            let draft := strTrim (env.llm primary_cfg lc_messages)
            if sec.1 = false then
              ((draft, primary_cfg.provider ++ "/" ++ primary_cfg.model ++ "[secondary-skipped]"),
               sec.2)
            else
              let sys_content := (lc_messages.head?.map LCMessage.content).getD ""
              let user_content := (lc_messages.getLast?.map LCMessage.content).getD ""
              let refine_messages : List LCMessage := [
                .system (sys_content ++ "\n\n" ++
                  "You are reviewing and enhancing a draft response. " ++
                  "Keep the character's voice. Improve clarity, depth, and authenticity. " ++
                  "Return ONLY the final polished response, no commentary."),
                .human ("Original question: " ++ user_content ++ "\n\nDraft response:\n" ++ draft)]
              let final_reply := strTrim (env.llm secondary_cfg refine_messages)
              ((final_reply,
                primary_cfg.provider ++ "/" ++ primary_cfg.model ++ "+" ++
                  secondary_cfg.provider ++ "/" ++ secondary_cfg.model), sec.2)

lemma rolePick_spec : ∀ (roles : List String) (r : String) (e : RoleEntry),
    rolePick roles = some (r, e) → ROLE_LLM_MAP r = some e := by
  intro roles
  induction roles with
  | nil => intro r e h; cases h
  | cons x xs ih =>
      intro r e h
      unfold rolePick at h
      cases hm : ROLE_LLM_MAP x with
      | none => rw [hm] at h; exact ih r e h
      | some e2 =>
          rw [hm] at h
          cases h
          exact hm

/-- Roles that carry a configured secondary are never the CMO role (the CMO
entry of `ROLE_LLM_MAP` has no secondary). -/
lemma resolve_secondary_role_ne_cmo (char : Character) (sc : LLMProviderConfig)
    (hsec : (resolve_role_llm char).secondary = some sc) :
    (resolve_role_llm char).role ≠ "cmo" := by
  unfold resolve_role_llm at hsec ⊢
  cases hp : rolePick char.roles with
  | none => rw [hp] at hsec; simp at hsec
  | some pe =>
      obtain ⟨r, e⟩ := pe
      rw [hp] at hsec
      dsimp only at hsec ⊢
      intro hr
      subst hr
      have hmap := rolePick_spec _ _ _ hp
      have he : e = ⟨("perplexity", "sonar-pro"), none⟩ := by
        have h2 : ROLE_LLM_MAP "cmo" = some ⟨("perplexity", "sonar-pro"), none⟩ := rfl
        rw [h2] at hmap
        exact (Option.some.inj hmap).symm
      subst he
      simp at hsec

/-- Case analysis of `resolve_role_llm_with_budget`: a fallback result has no
secondary and keeps the base role; a non-fallback result is the base
resolution and its store is the primary-consume store. -/
lemma resolve_with_budget_cases (char : Character) (store : BudgetStore) :
    ((resolve_role_llm_with_budget char store).1.fallback_used = true →
      (resolve_role_llm_with_budget char store).1.secondary = none ∧
      (resolve_role_llm_with_budget char store).1.role = (resolve_role_llm char).role) ∧
    ((resolve_role_llm_with_budget char store).1.fallback_used = false →
      (resolve_role_llm_with_budget char store).1 =
        { primary := (resolve_role_llm char).primary,
          secondary := (resolve_role_llm char).secondary,
          role := (resolve_role_llm char).role, fallback_used := false } ∧
      (resolve_role_llm_with_budget char store).2 =
        (_budget_consume store (_api_key_name (resolve_role_llm char).primary)).2) := by
  simp only [resolve_role_llm_with_budget]
  by_cases hallow : (_budget_consume store (_api_key_name (resolve_role_llm char).primary)).1 = true
  · rw [if_pos hallow]
    refine ⟨fun h => ?_, fun _ => ⟨rfl, rfl⟩⟩
    exact Bool.noConfusion h
  · rw [if_neg hallow]
    cases hfb : FALLBACK_LLM (_api_key_name (resolve_role_llm char).primary) with
    | none =>
        refine ⟨fun h => ?_, fun _ => ⟨rfl, rfl⟩⟩
        exact Bool.noConfusion h
    | some fb =>
        refine ⟨fun _ => ⟨rfl, rfl⟩, fun h => ?_⟩
        exact Bool.noConfusion h

/-- Claim C8: for a role with a configured secondary (ensemble) provider and
no caller override, the secondary refinement step is never attempted once a
fallback was substituted for the primary (single primary call, `[fallback]`
label, no further budget consumption), and when the secondary capability's
budget consume is denied the primary's draft is returned unmodified with the
`[secondary-skipped]` label. -/
theorem ensemble_secondary_rules (env : AgentEnv) (char : Character) (msgs : List LCMessage)
    (store : BudgetStore) (sc : LLMProviderConfig)
    (hsec : (resolve_role_llm char).secondary = some sc) :
    ((resolve_role_llm_with_budget char store).1.fallback_used = true →
      invoke_with_role env char msgs none (some store) =
        ((strTrim (env.llm (resolve_role_llm_with_budget char store).1.primary msgs),
          (resolve_role_llm_with_budget char store).1.primary.provider ++ "/" ++
            (resolve_role_llm_with_budget char store).1.primary.model ++ "[fallback]"),
         some (resolve_role_llm_with_budget char store).2)) ∧
    ((resolve_role_llm_with_budget char store).1.fallback_used = false →
      (_budget_consume (resolve_role_llm_with_budget char store).2 (_api_key_name sc)).1 = false →
      invoke_with_role env char msgs none (some store) =
        ((strTrim (env.llm (resolve_role_llm_with_budget char store).1.primary msgs),
          (resolve_role_llm_with_budget char store).1.primary.provider ++ "/" ++
            (resolve_role_llm_with_budget char store).1.primary.model ++ "[secondary-skipped]"),
         some (_budget_consume (resolve_role_llm_with_budget char store).2
                 (_api_key_name sc)).2)) := by
  have hcmo := resolve_secondary_role_ne_cmo char sc hsec
  have hca := resolve_with_budget_cases char store
  constructor
  · intro hfb
    obtain ⟨hs2, hrole⟩ := hca.1 hfb
    simp only [invoke_with_role]
    rw [if_neg (by rw [hrole]; exact hcmo)]
    rw [hs2, hfb]
    simp
  · intro hfb hdeny
    obtain ⟨hrc, _⟩ := hca.2 hfb
    simp only [invoke_with_role]
    rw [if_neg (by rw [hrc]; exact hcmo)]
    rw [hrc, hsec]
    simp only [consumeOpt]
    rw [if_pos hdeny]
    simp

/-- A store where `openai_gpt4o` is available but `anthropic_opus` (the CEO
secondary) is exhausted. -/
def sbOpusFull : BudgetStore :=
  { rows := fun n =>
      if n = "openai_gpt4o" then some ⟨10, 0, 0⟩
      else if n = "anthropic_opus" then some ⟨2, 2, 1/25⟩
      else none,
    prevLimit := fun _ => none }

/-- Witness for C8: resolving the CEO role succeeds on the primary, the
secondary's budget is denied, and the reply is the primary draft labeled
`[secondary-skipped]`. -/
theorem ensemble_secondary_rules_witness :
    invoke_with_role envNoKeys ceoChar [] none (some sbOpusFull) =
      ((strTrim "", "openai/gpt-4o[secondary-skipped]"),
       some (_budget_consume (resolve_role_llm_with_budget ceoChar sbOpusFull).2
               (_api_key_name { provider := "anthropic", model := "claude-opus-4-5" })).2) := by
  have h := (ensemble_secondary_rules envNoKeys ceoChar [] sbOpusFull
      { provider := "anthropic", model := "claude-opus-4-5" } rfl).2 (by rfl) (by rfl)
  rw [h]
  rfl

/-- Outcome of one Gemini QC call: a response text, or a raised exception. -/
inductive GeminiResult
  | ok (text : String)
  | err (msg : String)
deriving DecidableEq, Repr

/-- External collaborators of the multi-angle generation core: the Gemini
credential, the diffusion backend (seed, strength, steps ↦ base64 image) and
the Gemini vision QC response as a function of the submitted image. -/
structure GenEnv where
  gemini_key : String := ""
  gen : Nat → ℚ → ℤ → String := fun _ _ _ => ""
  qc_resp : String → GeminiResult := fun _ => .err ""

/-- `_qc_angle_gemini(img_b64, angle_name, angle_desc, product_identity)`:
skip (pass) without a credential; an exception passes with a truncated
`qc_error:` reason; otherwise both `ANGLE_OK: YES` and `SUBJECT_OK: YES` must
occur in the uppercased response, and a failure reason is assembled from the
failed checks. -/
def _qc_angle_gemini (env : GenEnv) (img_b64 angle_name angle_desc product_identity : String) :
    Bool × String :=
  if env.gemini_key = "" then (true, "qc_skipped")
  else
    match env.qc_resp img_b64 with
    | .err e => (true, "qc_error: " ++ strTake e 80)
    | .ok t =>
        let text := strToUpper (strTrim t)
        let angle_ok := strContains text "ANGLE_OK: YES"
        let subject_ok := strContains text "SUBJECT_OK: YES"
        let passed := angle_ok && subject_ok
        if passed then (true, "pass")
        else
          let reason_parts :=
            (if angle_ok then [] else ["wrong angle (expected " ++ angle_name ++ ")"]) ++
            (if subject_ok then [] else ["subject not visible"])
          (false, joinSep "; " reason_parts)

/-- One per-attempt generation record (the ephemeral `GenerationAttempt` of
the spec data model): 1-based attempt number, seed, attempt strength and the
generated image. -/
structure GenerationAttempt where
  attempt_number : Nat
  seed : Nat
  strength : ℚ
  image : String
deriving DecidableEq, Repr

/-- The `angle` stream event for one unit: identity, delivered image, the
seed/strength fields as yielded (`seed` is the accepted attempt's seed,
`strength` the nominal per-angle strength), and the QC verdict. -/
structure AngleEvent where
  angle_idx : Nat
  angle_name : String
  angle_desc : String
  image : Option String
  seed : Nat
  strength : ℚ
  qc_passed : Bool
  qc_reason : String
deriving DecidableEq, Repr

/-- Python 3's `round` to an integer (banker's rounding: exact halves go to
the even neighbour), on exact rationals. -/
def pyRound (q : ℚ) : ℤ :=
  let f := ⌊q⌋
  let r := q - (f : ℚ)
  if r < 1/2 then f
  else if 1/2 < r then f + 1
  else if f % 2 = 0 then f else f + 1

/-- `attempt_strength = min(strength + attempt*0.05, 0.88)`: the retry
relaxation of the intensity parameter, capped at 0.88. -/
def attemptStrength (strength : ℚ) (attempt : Nat) : ℚ :=
  min (strength + attempt * (1/20)) (22/25)

/-- `attempt_steps = max(round(num_steps / attempt_strength), num_steps)`. -/
def attemptSteps (num_steps : Nat) (strength : ℚ) (attempt : Nat) : ℤ :=
  max (pyRound ((num_steps : ℚ) / attemptStrength strength attempt)) (num_steps : ℤ)

/-- The mutable per-angle loop state of `_run_multi_angle_core`
(`qc_passed`, `qc_reason`, `best_img`, `best_seed`) plus a flag modelling
`break`. -/
structure AngleLoopState where
  qc_passed : Bool
  qc_reason : String
  best_img : Option String
  best_seed : Nat
  broke : Bool
deriving DecidableEq, Repr

/-- One iteration of the `for attempt in range(2)` body: generate at
`best_seed + attempt*1000` with strength `min(strength + attempt*0.05, 0.88)`
and `max(round(num_steps/attempt_strength), num_steps)` steps; accept
immediately when QC is disabled or passes; on a first-attempt failure keep
the image as fallback; on a second-attempt failure keep the stored fallback
(or this image if none was stored — unreachable in practice). -/
def attemptStep (env : GenEnv) (qc_enabled : Bool)
    (angle_name angle_desc product_identity : String) (strength : ℚ) (num_steps : Nat)
    (st : AngleLoopState) (attempt : Nat) : AngleLoopState × Option GenerationAttempt :=
  if st.broke then (st, none)
  else
    let angle_seed := st.best_seed + attempt * 1000
    let attempt_strength := attemptStrength strength attempt
    let attempt_steps := attemptSteps num_steps strength attempt
    let img_b64 := env.gen angle_seed attempt_strength attempt_steps
    let att : GenerationAttempt :=
      ⟨attempt + 1, angle_seed, attempt_strength, img_b64⟩
    if qc_enabled = false then
      ({ qc_passed := true, qc_reason := "qc_disabled", best_img := some img_b64,
         best_seed := angle_seed, broke := true }, some att)
    else
      let qc := _qc_angle_gemini env img_b64 angle_name angle_desc product_identity
      if qc.1 then
        ({ qc_passed := true, qc_reason := qc.2, best_img := some img_b64,
           best_seed := angle_seed, broke := true }, some att)
      else if attempt = 0 then
        ({ qc_passed := false, qc_reason := qc.2, best_img := some img_b64,
           best_seed := angle_seed, broke := false }, some att)
      else
        ({ qc_passed := false, qc_reason := qc.2,
           best_img := if st.best_img = none then some img_b64 else st.best_img,
           best_seed := if st.best_img = none then angle_seed else st.best_seed,
           broke := false }, some att)

/-- One unit of the quality-gated loop: the two-attempt body of
`_run_multi_angle_core` for a single angle, returning the yielded `angle`
event and the generation attempts actually made. -/
def run_angle (env : GenEnv) (product_identity : String) (base_seed num_steps angle_idx : Nat)
    (angle_name angle_desc : String) (strength : ℚ) : AngleEvent × List GenerationAttempt :=
  let qc_enabled : Bool := env.gemini_key ≠ ""
  let st0 : AngleLoopState :=
    { qc_passed := true, qc_reason := "qc_disabled", best_img := none,
      best_seed := base_seed + angle_idx * 37, broke := false }
  let s1 := attemptStep env qc_enabled angle_name angle_desc product_identity strength num_steps st0 0
  let s2 := attemptStep env qc_enabled angle_name angle_desc product_identity strength num_steps s1.1 1
  ({ angle_idx := angle_idx, angle_name := angle_name, angle_desc := angle_desc,
     image := s2.1.best_img, seed := s2.1.best_seed, strength := strength,
     qc_passed := s2.1.qc_passed, qc_reason := s2.1.qc_reason },
   [s1.2, s2.2].filterMap id)

/-- One row of `MULTI_ANGLE_SHOTS`: name, prompt fragment, per-subject-type
strengths. -/
structure Shot where
  name : String
  desc : String
  s_prop : ℚ
  s_actor : ℚ
deriving DecidableEq, Repr

/-- The 16-row `MULTI_ANGLE_SHOTS` table (prompt fragments abbreviated to
their distinguishing head; strengths exact). -/
def MULTI_ANGLE_SHOTS : List Shot := [
  ⟨"Front View", "front view, straight-on shot", 18/25, 18/25⟩,
  ⟨"Back View", "back view, 180-degree rear shot", 39/50, 3/4⟩,
  ⟨"Left Side", "pure left side profile view", 39/50, 3/4⟩,
  ⟨"Right Side", "pure right side profile view", 39/50, 3/4⟩,
  ⟨"3/4 Front-Left", "three-quarter angle view from front-left", 3/4, 18/25⟩,
  ⟨"3/4 Front-Right", "three-quarter angle view from front-right", 3/4, 18/25⟩,
  ⟨"3/4 Back-Left", "three-quarter angle view from back-left", 39/50, 3/4⟩,
  ⟨"3/4 Back-Right", "three-quarter angle view from back-right", 39/50, 3/4⟩,
  ⟨"Overhead", "directly overhead top-down view", 41/50, 4/5⟩,
  ⟨"Bottom View", "directly underneath view", 41/50, 4/5⟩,
  ⟨"Detail Left", "extreme close-up of left side detail", 29/50, 29/50⟩,
  ⟨"Detail Right", "extreme close-up of right side detail", 29/50, 29/50⟩,
  ⟨"Detail Front", "extreme close-up front center detail", 11/20, 11/20⟩,
  ⟨"Macro Texture", "extreme macro close-up", 1/2, 1/2⟩,
  ⟨"Flat-Lay", "flat-lay composition", 4/5, 39/50⟩,
  ⟨"Glamour Hero", "dramatic glamour hero shot", 18/25, 7/10⟩]

/-- The `angle_indices` subset selection: requested in-range indices paired
with their shots, else all 16 enumerated. -/
def angleSubset (angle_indices : Option (List Nat)) : List (Nat × Shot) :=
  match angle_indices with
  | some idxs => idxs.filterMap fun i => (MULTI_ANGLE_SHOTS.get? i).map fun s => (i, s)
  | none => MULTI_ANGLE_SHOTS.enum

/-- `strength_field_idx` selection: column 2 for props, column 3 for
actors. -/
def shotStrength (subject_type : String) (s : Shot) : ℚ :=
  if subject_type = "prop" then s.s_prop else s.s_actor

/-- Events pushed on the streaming channel. -/
inductive StreamEvent
  | start (product_caption model_name : String)
  | angle (e : AngleEvent)
  | finished (total : Nat) (qc_enabled : Bool)
deriving DecidableEq, Repr

/-- Whether a stream event is a per-unit `angle` event. -/
def StreamEvent.isAngle : StreamEvent → Bool
  | .angle _ => true
  | _ => false

/-- The event stream of `_run_multi_angle_core` after setup: the `init`
event, one `angle` event per selected unit in order, and the terminal `done`
aggregate. -/
def _run_multi_angle_core_events (env : GenEnv)
    (product_identity product_caption model_variant subject_type : String)
    (base_seed num_steps : Nat) (angle_indices : Option (List Nat)) : List StreamEvent :=
  let subset := angleSubset angle_indices
  (StreamEvent.start product_caption ("flux-" ++ model_variant) ::
    subset.map fun p =>
      StreamEvent.angle (run_angle env product_identity base_seed num_steps p.1 p.2.name p.2.desc
        (shotStrength subject_type p.2)).1) ++
  [StreamEvent.finished subset.length (env.gemini_key ≠ "")]

lemma run_angle_qc_disabled (env : GenEnv) (pid : String) (bs ns idx : Nat) (nm ds : String)
    (strength : ℚ) (hkey : env.gemini_key = "") :
    run_angle env pid bs ns idx nm ds strength =
      ({ angle_idx := idx, angle_name := nm, angle_desc := ds,
         image := some (env.gen (bs + idx * 37) (attemptStrength strength 0) (attemptSteps ns strength 0)),
         seed := bs + idx * 37, strength := strength, qc_passed := true,
         qc_reason := "qc_disabled" },
       [⟨1, bs + idx * 37, attemptStrength strength 0,
         env.gen (bs + idx * 37) (attemptStrength strength 0) (attemptSteps ns strength 0)⟩]) := by
  simp only [run_angle, attemptStep, hkey]
  simp

lemma run_angle_pass1 (env : GenEnv) (pid : String) (bs ns idx : Nat) (nm ds : String)
    (strength : ℚ) (hkey : env.gemini_key ≠ "")
    (h0 : (_qc_angle_gemini env
            (env.gen (bs + idx * 37) (attemptStrength strength 0) (attemptSteps ns strength 0))
            nm ds pid).1 = true) :
    run_angle env pid bs ns idx nm ds strength =
      ({ angle_idx := idx, angle_name := nm, angle_desc := ds,
         image := some (env.gen (bs + idx * 37) (attemptStrength strength 0) (attemptSteps ns strength 0)),
         seed := bs + idx * 37, strength := strength, qc_passed := true,
         qc_reason := (_qc_angle_gemini env
            (env.gen (bs + idx * 37) (attemptStrength strength 0) (attemptSteps ns strength 0))
            nm ds pid).2 },
       [⟨1, bs + idx * 37, attemptStrength strength 0,
         env.gen (bs + idx * 37) (attemptStrength strength 0) (attemptSteps ns strength 0)⟩]) := by
  simp only [run_angle, attemptStep, hkey]
  simp [h0, hkey]

lemma run_angle_fail_pass (env : GenEnv) (pid : String) (bs ns idx : Nat) (nm ds : String)
    (strength : ℚ) (hkey : env.gemini_key ≠ "")
    (h0 : (_qc_angle_gemini env
            (env.gen (bs + idx * 37) (attemptStrength strength 0) (attemptSteps ns strength 0))
            nm ds pid).1 = false)
    (h1 : (_qc_angle_gemini env
            (env.gen (bs + idx * 37 + 1000) (attemptStrength strength 1) (attemptSteps ns strength 1))
            nm ds pid).1 = true) :
    run_angle env pid bs ns idx nm ds strength =
      ({ angle_idx := idx, angle_name := nm, angle_desc := ds,
         image := some (env.gen (bs + idx * 37 + 1000) (attemptStrength strength 1)
                        (attemptSteps ns strength 1)),
         seed := bs + idx * 37 + 1000, strength := strength, qc_passed := true,
         qc_reason := (_qc_angle_gemini env
            (env.gen (bs + idx * 37 + 1000) (attemptStrength strength 1) (attemptSteps ns strength 1))
            nm ds pid).2 },
       [⟨1, bs + idx * 37, attemptStrength strength 0,
         env.gen (bs + idx * 37) (attemptStrength strength 0) (attemptSteps ns strength 0)⟩,
        ⟨2, bs + idx * 37 + 1000, attemptStrength strength 1,
         env.gen (bs + idx * 37 + 1000) (attemptStrength strength 1) (attemptSteps ns strength 1)⟩]) := by
  simp only [run_angle, attemptStep, hkey]
  simp [h0, h1, hkey]

lemma run_angle_fail_fail (env : GenEnv) (pid : String) (bs ns idx : Nat) (nm ds : String)
    (strength : ℚ) (hkey : env.gemini_key ≠ "")
    (h0 : (_qc_angle_gemini env
            (env.gen (bs + idx * 37) (attemptStrength strength 0) (attemptSteps ns strength 0))
            nm ds pid).1 = false)
    (h1 : (_qc_angle_gemini env
            (env.gen (bs + idx * 37 + 1000) (attemptStrength strength 1) (attemptSteps ns strength 1))
            nm ds pid).1 = false) :
    run_angle env pid bs ns idx nm ds strength =
      ({ angle_idx := idx, angle_name := nm, angle_desc := ds,
         image := some (env.gen (bs + idx * 37) (attemptStrength strength 0) (attemptSteps ns strength 0)),
         seed := bs + idx * 37, strength := strength, qc_passed := false,
         qc_reason := (_qc_angle_gemini env
            (env.gen (bs + idx * 37 + 1000) (attemptStrength strength 1) (attemptSteps ns strength 1))
            nm ds pid).2 },
       [⟨1, bs + idx * 37, attemptStrength strength 0,
         env.gen (bs + idx * 37) (attemptStrength strength 0) (attemptSteps ns strength 0)⟩,
        ⟨2, bs + idx * 37 + 1000, attemptStrength strength 1,
         env.gen (bs + idx * 37 + 1000) (attemptStrength strength 1) (attemptSteps ns strength 1)⟩]) := by
  simp only [run_angle, attemptStep, hkey]
  simp [h0, h1, hkey]

lemma str_append_ne_empty_right (a c : String) (hc : c.length ≠ 0) : a ++ c ≠ "" := by
  intro h
  have := congrArg String.length h
  simp [String.length_append] at this
  omega

/-- A failing QC verdict always carries a non-empty reason. -/
lemma qc_fail_reason_nonempty (env : GenEnv) (img nm ds pid : String)
    (h : (_qc_angle_gemini env img nm ds pid).1 = false) :
    (_qc_angle_gemini env img nm ds pid).2 ≠ "" := by
  unfold _qc_angle_gemini at h ⊢
  by_cases hk : env.gemini_key = ""
  · rw [if_pos hk] at h; exact absurd h (by simp)
  · rw [if_neg hk] at h ⊢
    cases hr : env.qc_resp img with
    | err e => rw [hr] at h; exact absurd h (by simp)
    | ok t =>
        rw [hr] at h
        by_cases ha : strContains (strToUpper (strTrim t)) "ANGLE_OK: YES"
        · by_cases hs2 : strContains (strToUpper (strTrim t)) "SUBJECT_OK: YES"
          · simp [ha, hs2] at h
          · simp only [Bool.not_eq_true] at hs2
            simp only [ha, hs2, Bool.true_and, Bool.false_eq_true, if_false, if_true,
              List.nil_append, joinSep]
            decide
        · simp only [Bool.not_eq_true] at ha
          by_cases hs2 : strContains (strToUpper (strTrim t)) "SUBJECT_OK: YES"
          · simp only [ha, hs2, Bool.false_and, Bool.false_eq_true, if_false, if_true,
              List.append_nil, joinSep]
            exact str_append_ne_empty_right _ _ (by decide)
          · simp only [Bool.not_eq_true] at hs2
            simp only [ha, hs2, Bool.false_and, Bool.false_eq_true, if_false,
              List.cons_append, List.nil_append, joinSep]
            exact str_append_ne_empty_right _ _ (by decide)

lemma filter_angle_map {α : Type} (l : List α) (f : α → AngleEvent) :
    (l.map fun x => StreamEvent.angle (f x)).filter StreamEvent.isAngle =
      l.map fun x => StreamEvent.angle (f x) := by
  induction l with
  | nil => rfl
  | cons x xs ih => simp [StreamEvent.isAngle, ih]

/-- Claim C3: with QC enabled, each unit makes at most two generation
attempts; attempt 1 uses `seed = base + index*37`; a failed first attempt
forces exactly one retry at `seed + 1000` with strength
`min(strength + 0.05, 0.88)`; the unit's event has `qc_passed = true` with
the passing attempt's seed when an attempt passes, `qc_passed = false` with a
non-empty reason when both fail; and the stream carries exactly one `angle`
event per selected unit, in order. -/
theorem quality_gate_retry_and_emission
    (env : GenEnv) (pid pc mv sty : String) (bs ns idx : Nat) (nm ds : String) (strength : ℚ)
    (idxs : Option (List Nat)) (hqc : env.gemini_key ≠ "") :
    ((run_angle env pid bs ns idx nm ds strength).2.length ≤ 2) ∧
    (((run_angle env pid bs ns idx nm ds strength).2.map (fun a => a.seed)).head? =
        some (bs + idx * 37)) ∧
    ((_qc_angle_gemini env
        (env.gen (bs + idx * 37) (attemptStrength strength 0) (attemptSteps ns strength 0))
        nm ds pid).1 = false →
      (run_angle env pid bs ns idx nm ds strength).2.map
          (fun a => (a.attempt_number, a.seed, a.strength)) =
        [(1, bs + idx * 37, attemptStrength strength 0),
         (2, bs + idx * 37 + 1000, attemptStrength strength 1)]) ∧
    ((_qc_angle_gemini env
        (env.gen (bs + idx * 37) (attemptStrength strength 0) (attemptSteps ns strength 0))
        nm ds pid).1 = true →
      (run_angle env pid bs ns idx nm ds strength).1.qc_passed = true ∧
      (run_angle env pid bs ns idx nm ds strength).1.seed = bs + idx * 37 ∧
      (run_angle env pid bs ns idx nm ds strength).2.length = 1) ∧
    ((_qc_angle_gemini env
        (env.gen (bs + idx * 37) (attemptStrength strength 0) (attemptSteps ns strength 0))
        nm ds pid).1 = false →
      (_qc_angle_gemini env
        (env.gen (bs + idx * 37 + 1000) (attemptStrength strength 1) (attemptSteps ns strength 1))
        nm ds pid).1 = true →
      (run_angle env pid bs ns idx nm ds strength).1.qc_passed = true ∧
      (run_angle env pid bs ns idx nm ds strength).1.seed = bs + idx * 37 + 1000) ∧
    ((_qc_angle_gemini env
        (env.gen (bs + idx * 37) (attemptStrength strength 0) (attemptSteps ns strength 0))
        nm ds pid).1 = false →
      (_qc_angle_gemini env
        (env.gen (bs + idx * 37 + 1000) (attemptStrength strength 1) (attemptSteps ns strength 1))
        nm ds pid).1 = false →
      (run_angle env pid bs ns idx nm ds strength).1.qc_passed = false ∧
      (run_angle env pid bs ns idx nm ds strength).1.qc_reason ≠ "") ∧
    ((_run_multi_angle_core_events env pid pc mv sty bs ns idxs).filter StreamEvent.isAngle =
      (angleSubset idxs).map fun p =>
        StreamEvent.angle
          (run_angle env pid bs ns p.1 p.2.name p.2.desc (shotStrength sty p.2)).1) := by
  have hstream : (_run_multi_angle_core_events env pid pc mv sty bs ns idxs).filter
      StreamEvent.isAngle =
      (angleSubset idxs).map fun p =>
        StreamEvent.angle
          (run_angle env pid bs ns p.1 p.2.name p.2.desc (shotStrength sty p.2)).1 := by
    unfold _run_multi_angle_core_events
    simp only [List.filter_append, List.filter_cons]
    simp [StreamEvent.isAngle, filter_angle_map]
  by_cases h0 : (_qc_angle_gemini env
      (env.gen (bs + idx * 37) (attemptStrength strength 0) (attemptSteps ns strength 0))
      nm ds pid).1 = true
  · rw [run_angle_pass1 env pid bs ns idx nm ds strength hqc h0]
    refine ⟨by simp, by simp, ?_, fun _ => ⟨rfl, rfl, rfl⟩, ?_, ?_, hstream⟩
    · intro h0f; rw [h0] at h0f; cases h0f
    · intro h0f _; rw [h0] at h0f; cases h0f
    · intro h0f _; rw [h0] at h0f; cases h0f
  · simp only [Bool.not_eq_true] at h0
    by_cases h1 : (_qc_angle_gemini env
        (env.gen (bs + idx * 37 + 1000) (attemptStrength strength 1) (attemptSteps ns strength 1))
        nm ds pid).1 = true
    · rw [run_angle_fail_pass env pid bs ns idx nm ds strength hqc h0 h1]
      refine ⟨by simp, by simp, fun _ => by simp, ?_, fun _ _ => ⟨rfl, rfl⟩, ?_, hstream⟩
      · intro h0t; rw [h0] at h0t; cases h0t
      · intro _ h1f; rw [h1] at h1f; cases h1f
    · simp only [Bool.not_eq_true] at h1
      rw [run_angle_fail_fail env pid bs ns idx nm ds strength hqc h0 h1]
      refine ⟨by simp, by simp, fun _ => by simp, ?_, ?_, ?_, hstream⟩
      · intro h0t; rw [h0] at h0t; cases h0t
      · intro _ h1t; rw [h1] at h1t; cases h1t
      · intro _ _
        exact ⟨rfl, qc_fail_reason_nonempty env _ nm ds pid h1⟩

/-- Concrete environment: attempt 1's image fails QC, attempt 2's passes. -/
def envQCRetry : GenEnv :=
  { gemini_key := "G",
    gen := fun s _ _ => if s = 42 then "IMG0" else "IMG1",
    qc_resp := fun img =>
      if img = "IMG0" then .ok "ANGLE_OK: NO\nSUBJECT_OK: YES"
      else .ok "ANGLE_OK: YES\nSUBJECT_OK: YES" }

/-- Witness for C3: with base seed 42 and index 0, a unit whose first attempt
fails and second passes ends `qc_passed = true` with seed `42 + 0*37 + 1000`. -/
theorem quality_gate_retry_and_emission_witness :
    (run_angle envQCRetry "p" 42 4 0 "Front View" "front view" (18/25)).1.qc_passed = true ∧
    (run_angle envQCRetry "p" 42 4 0 "Front View" "front view" (18/25)).1.seed =
      42 + 0 * 37 + 1000 :=
  (quality_gate_retry_and_emission envQCRetry "p" "" "schnell" "prop" 42 4 0
    "Front View" "front view" (18/25) (some [0]) (by decide)).2.2.2.2.1 (by decide) (by decide)

/-- Concrete environment: every QC verdict fails, with distinct images per
attempt. -/
def envQCBothFail : GenEnv :=
  { gemini_key := "G",
    gen := fun s _ _ => if s = 42 then "IMG0" else "IMG1",
    qc_resp := fun _ => .ok "ANGLE_OK: NO\nSUBJECT_OK: YES" }

/-- Counterexample to C4 as stated: when both attempts fail, the attempts
generated the images `IMG0` (attempt 1) and `IMG1` (attempt 2), but the
emitted event delivers attempt 1's image `IMG0`, not attempt 2's. -/
theorem qc_both_fail_attempt1_image_counterexample :
    ((run_angle envQCBothFail "p" 42 4 0 "Front View" "front view" (18/25)).2.map
        (fun a => a.image)) = ["IMG0", "IMG1"] ∧
    (run_angle envQCBothFail "p" 42 4 0 "Front View" "front view" (18/25)).1.qc_passed = false ∧
    (run_angle envQCBothFail "p" 42 4 0 "Front View" "front view" (18/25)).1.image = some "IMG0" ∧
    ("IMG0" : String) ≠ "IMG1" := by
  refine ⟨?_, ?_, ?_, by decide⟩ <;> decide

/-- Claim C4 (amended): when both attempts fail the quality check, the
emitted event still delivers a non-null image — attempt 1's image, kept as
the fallback when attempt 1 failed — marked `qc_passed = false` together with
attempt 2's failure reason. -/
theorem qc_both_fail_delivery (env : GenEnv) (pid : String) (bs ns idx : Nat) (nm ds : String)
    (strength : ℚ) (hqc : env.gemini_key ≠ "")
    (h0 : (_qc_angle_gemini env
            (env.gen (bs + idx * 37) (attemptStrength strength 0) (attemptSteps ns strength 0))
            nm ds pid).1 = false)
    (h1 : (_qc_angle_gemini env
            (env.gen (bs + idx * 37 + 1000) (attemptStrength strength 1) (attemptSteps ns strength 1))
            nm ds pid).1 = false) :
    (run_angle env pid bs ns idx nm ds strength).1.image =
      some (env.gen (bs + idx * 37) (attemptStrength strength 0) (attemptSteps ns strength 0)) ∧
    (run_angle env pid bs ns idx nm ds strength).1.image ≠ none ∧
    (run_angle env pid bs ns idx nm ds strength).1.qc_passed = false ∧
    (run_angle env pid bs ns idx nm ds strength).1.qc_reason =
      (_qc_angle_gemini env
        (env.gen (bs + idx * 37 + 1000) (attemptStrength strength 1) (attemptSteps ns strength 1))
        nm ds pid).2 := by
  rw [run_angle_fail_fail env pid bs ns idx nm ds strength hqc h0 h1]
  exact ⟨rfl, by simp, rfl, rfl⟩

/-- Witness for the amended C4: in the concrete both-fail environment the
delivered image is attempt 1's `IMG0`, non-null, with `qc_passed = false`. -/
theorem qc_both_fail_delivery_witness :
    (run_angle envQCBothFail "p" 42 4 0 "Front View" "front view" (18/25)).1.image =
      some (envQCBothFail.gen (42 + 0 * 37) (attemptStrength (18/25) 0)
        (attemptSteps 4 (18/25) 0)) ∧
    (run_angle envQCBothFail "p" 42 4 0 "Front View" "front view" (18/25)).1.image ≠ none ∧
    (run_angle envQCBothFail "p" 42 4 0 "Front View" "front view" (18/25)).1.qc_passed = false ∧
    (run_angle envQCBothFail "p" 42 4 0 "Front View" "front view" (18/25)).1.qc_reason =
      (_qc_angle_gemini envQCBothFail
        (envQCBothFail.gen (42 + 0 * 37 + 1000) (attemptStrength (18/25) 1)
          (attemptSteps 4 (18/25) 1))
        "Front View" "front view" "p").2 :=
  qc_both_fail_delivery envQCBothFail "p" 42 4 0 "Front View" "front view" (18/25)
    (by decide) (by decide) (by decide)

/-- Concrete environment with the Gemini credential absent. -/
def envNoQCKey : GenEnv :=
  { gemini_key := "", gen := fun _ _ _ => "IMG", qc_resp := fun _ => .err "" }

/-- Counterexample to C9 as stated: with the credential absent, the unit is
accepted on attempt 1, but its `qc_reason` is `"qc_disabled"` (QC is switched
off before the loop), not `"qc_skipped"` as the claim says. -/
theorem qc_absent_reason_counterexample :
    (run_angle envNoQCKey "p" 42 4 0 "Front View" "front view" (18/25)).1.qc_passed = true ∧
    (run_angle envNoQCKey "p" 42 4 0 "Front View" "front view" (18/25)).1.qc_reason =
      "qc_disabled" ∧
    ("qc_disabled" : String) ≠ "qc_skipped" := by
  refine ⟨?_, ?_, by decide⟩ <;> decide

/-- Without a credential the standalone checker reports `qc_skipped`, but the
angle loop never reaches it in that case. -/
lemma qc_gemini_error_result (env : GenEnv) (img nm ds pid e : String)
    (hkey : env.gemini_key ≠ "") (herr : env.qc_resp img = .err e) :
    _qc_angle_gemini env img nm ds pid = (true, "qc_error: " ++ strTake e 80) := by
  unfold _qc_angle_gemini
  rw [if_neg hkey, herr]

/-- Claim C9 (amended): quality-check unavailability never blocks primary
output — with the credential absent the unit is accepted immediately on
attempt 1 with `qc_reason = "qc_disabled"` (not `"qc_skipped"`, which only the
bypassed standalone checker would report), and when the check call raises an
error the unit is accepted on attempt 1 with
`qc_reason = "qc_error:<truncated detail>"`; in both cases exactly one
attempt is made. -/
theorem qc_unavailability_fail_open (env : GenEnv) (pid : String) (bs ns idx : Nat)
    (nm ds : String) (strength : ℚ) :
    (env.gemini_key = "" →
      (run_angle env pid bs ns idx nm ds strength).1.qc_passed = true ∧
      (run_angle env pid bs ns idx nm ds strength).1.qc_reason = "qc_disabled" ∧
      (run_angle env pid bs ns idx nm ds strength).2.length = 1) ∧
    (env.gemini_key ≠ "" →
      ∀ e, env.qc_resp
          (env.gen (bs + idx * 37) (attemptStrength strength 0) (attemptSteps ns strength 0)) =
            .err e →
        (run_angle env pid bs ns idx nm ds strength).1.qc_passed = true ∧
        (run_angle env pid bs ns idx nm ds strength).1.qc_reason =
          "qc_error: " ++ strTake e 80 ∧
        (run_angle env pid bs ns idx nm ds strength).2.length = 1) := by
  constructor
  · intro hkey
    rw [run_angle_qc_disabled env pid bs ns idx nm ds strength hkey]
    exact ⟨rfl, rfl, rfl⟩
  · intro hkey e herr
    have hqc := qc_gemini_error_result env _ nm ds pid e hkey herr
    have h0 : (_qc_angle_gemini env
        (env.gen (bs + idx * 37) (attemptStrength strength 0) (attemptSteps ns strength 0))
        nm ds pid).1 = true := by rw [hqc]
    rw [run_angle_pass1 env pid bs ns idx nm ds strength hkey h0]
    refine ⟨rfl, ?_, rfl⟩
    show (_qc_angle_gemini env _ nm ds pid).2 = _
    rw [hqc]

/-- Concrete environment where the credential is present but every QC call
raises. -/
def envQCErr : GenEnv :=
  { gemini_key := "G", gen := fun _ _ _ => "IMG", qc_resp := fun _ => .err "boom" }

/-- Witness for the amended C9: the credential-absent case yields
`qc_disabled` in one attempt, and the erroring-check case yields
`qc_error: boom` in one attempt. -/
theorem qc_unavailability_fail_open_witness :
    ((run_angle envNoQCKey "p" 42 4 0 "Front View" "front view" (18/25)).1.qc_reason =
      "qc_disabled" ∧
     (run_angle envNoQCKey "p" 42 4 0 "Front View" "front view" (18/25)).2.length = 1) ∧
    ((run_angle envQCErr "p" 42 4 0 "Front View" "front view" (18/25)).1.qc_reason =
      "qc_error: " ++ strTake "boom" 80 ∧
     (run_angle envQCErr "p" 42 4 0 "Front View" "front view" (18/25)).2.length = 1) := by
  have h1 := (qc_unavailability_fail_open envNoQCKey "p" 42 4 0 "Front View" "front view"
    (18/25)).1 (by rfl)
  have h2 := (qc_unavailability_fail_open envQCErr "p" 42 4 0 "Front View" "front view"
    (18/25)).2 (by decide) "boom" (by rfl)
  exact ⟨⟨h1.2.1, h1.2.2⟩, ⟨h2.2.1, h2.2.2⟩⟩

/-- A character item of a training batch, as read by `_train_all_start` /
`train_one` (`frames`/`captions`/`lr`/`rank` feed only the outbound payload
of the external training endpoint and are not re-read by the dispatcher). -/
structure TrainChar where
  name : Option String := none
  ctype : Option String := none
deriving DecidableEq, Repr

/-- Outcome of one `requests.post` to a training endpoint: the parsed
response fields the code reads, or a raised exception. -/
inductive TrainOutcome
  | resp (ok : Bool) (lora_name lora_path cloudinary_url : Option String)
      (steps : Option Nat) (message : String) (error : Option String)
  | exc (msg : String)
deriving DecidableEq, Repr

/-- One per-item result record built by `train_one` (wall-clock `time` and
the elapsed-derived `cost_usd` elided; absent dict keys of the exception arm
modelled as their defaults). -/
structure TrainResult where
  name : String
  gpu : String
  ok : Bool
  lora_name : Option String := none
  lora_path : Option String := none
  cloudinary_url : Option String := none
  steps : Option Nat := none
  message : String := ""
  error : Option String := none
deriving DecidableEq, Repr

/-- `gpu_assignment` and the `min(idx, len-1)` lookup. -/
def gpu_assignment : List String := ["H100", "H100", "H200", "H200"]

/-- GPU label for item `idx`. -/
def gpuFor (idx : Nat) : String :=
  gpu_assignment.getD (min idx (gpu_assignment.length - 1)) "H100"

/-- `train_one(idx, char)`: build the per-item record from the endpoint
response, or wrap a raised exception into `{ok: false, error}`. -/
def train_one (idx : Nat) (char : TrainChar) (outcome : TrainOutcome) : TrainResult :=
  let nm := char.name.getD ("char" ++ toString idx)
  let gpu := gpuFor idx
  match outcome with
  | .resp ok ln lp cu st msg err =>
      { name := nm, gpu := gpu, ok := ok, lora_name := ln, lora_path := lp,
        cloudinary_url := cu, steps := st, message := msg, error := err }
  | .exc e =>
      { name := nm, gpu := gpu, ok := false, error := some e }

/-- `[c.get("name", f"char{i}") for i, c in enumerate(characters)]`, with the
running index made explicit. -/
def name_order_aux (k : Nat) : List TrainChar → List String
  | [] => []
  | c :: cs => c.name.getD ("char" ++ toString k) :: name_order_aux (k + 1) cs

/-- The original character-name order used as the finalization sort key. -/
def name_order (chars : List TrainChar) : List String :=
  name_order_aux 0 chars

/-- `name_order.index(r["name"]) if r["name"] in name_order else 99`. -/
def sortKey (no : List String) (r : TrainResult) : Nat :=
  match no.findIdx? (fun y => y = r.name) with
  | some i => i
  | none => 99

/-- The final job snapshot written by `run_training_background` (the
`message` tally is carried as `ok_count`/`total`; its wall-clock, speedup and
cost interpolations are external real-time values). -/
structure JobFinal where
  status : String
  results : List TrainResult
  ok_count : Nat
  total : Nat
deriving Repr

/-- `run_training_background`: the single background thread appends one
result per completed worker in completion order (`order`), then finalizes:
count successes, stably sort the results by original name order
(`list.sort` with the `name_order.index` key) and mark the job `done`. -/
def run_training_background (chars : List TrainChar) (outs : Nat → TrainOutcome)
    (order : List Nat) : JobFinal :=
  let results := order.map fun i => train_one i (chars.getD i {}) (outs i)
  let ok_count := (results.filter fun r => r.ok).length
  let no := name_order chars
  let sorted := List.insertionSort (fun a b => sortKey no a ≤ sortKey no b) results
  { status := "done", results := sorted, ok_count := ok_count, total := results.length }

lemma insertionSort_eq_of_strict {α : Type} (key : α → Nat) (M L : List α)
    (hperm : List.Perm M L) (hsorted : L.Pairwise fun a b => key a < key b) :
    List.insertionSort (fun a b => key a ≤ key b) M = L := by
  haveI : IsTotal α (fun a b => key a ≤ key b) := ⟨fun a b => Nat.le_total _ _⟩
  haveI : IsTrans α (fun a b => key a ≤ key b) := ⟨fun a b c h1 h2 => Nat.le_trans h1 h2⟩
  haveI : IsAntisymm α (fun a b => key a < key b ∨ a = b) := by
    refine ⟨fun a b h1 h2 => ?_⟩
    rcases h1 with h1 | h1
    · rcases h2 with h2 | h2
      · omega
      · exact h2.symm
    · exact h1
  have hp : List.Perm (List.insertionSort (fun a b => key a ≤ key b) M) L :=
    (List.perm_insertionSort _ M).trans hperm
  apply @List.eq_of_perm_of_sorted _ (fun a b => key a < key b ∨ a = b) _ _ _ hp
  · have hs1 : (List.insertionSort (fun a b => key a ≤ key b) M).Pairwise
        (fun a b => key a ≤ key b) := List.sorted_insertionSort _ M
    have hndL : (L.map key).Pairwise (fun a b => a ≠ b) := by
      rw [List.pairwise_map]
      exact hsorted.imp fun h => Nat.ne_of_lt h
    have hndM : ((List.insertionSort (fun a b => key a ≤ key b) M).map key).Pairwise
        (fun a b => a ≠ b) := by
      have hpm := hp.map key
      exact (List.Perm.nodup_iff hpm).mpr hndL
    rw [List.pairwise_map] at hndM
    exact (hs1.and hndM).imp fun h => Or.inl (Nat.lt_of_le_of_ne h.1 h.2)
  · exact hsorted.imp fun h => Or.inl h

lemma train_one_name (idx : Nat) (char : TrainChar) (o : TrainOutcome) :
    (train_one idx char o).name = char.name.getD ("char" ++ toString idx) := by
  cases o <;> rfl

lemma name_order_aux_get? (l : List TrainChar) :
    ∀ (k i : Nat), (name_order_aux k l).get? i =
      (l.get? i).map fun c => c.name.getD ("char" ++ toString (k + i)) := by
  induction l with
  | nil => intro k i; cases i <;> rfl
  | cons c cs ih =>
      intro k i
      cases i with
      | zero => rfl
      | succ n =>
          show (name_order_aux (k + 1) cs).get? n = _
          rw [ih (k + 1) n]
          have : k + 1 + n = k + (n + 1) := by omega
          rw [this]
          rfl

lemma findIdx_go_eq_of_nodup (l : List String) :
    ∀ (k i : Nat) (x : String), l.Nodup → l.get? i = some x →
      List.findIdx? (fun y => y = x) l k = some (k + i) := by
  induction l with
  | nil => intro k i x _ hget; cases hget
  | cons a as ih =>
      intro k i x hnd hget
      cases i with
      | zero =>
          cases hget
          simp [List.findIdx?_cons]
      | succ n =>
          have hmem : x ∈ as := List.get?_mem hget
          have ha : ¬(a = x) := by
            intro he
            subst he
            exact (List.nodup_cons.mp hnd).1 hmem
          rw [List.findIdx?_cons]
          simp only [ha, decide_False, Bool.false_eq_true, if_false]
          rw [ih (k + 1) n x (List.nodup_cons.mp hnd).2 hget]
          congr 1
          omega

lemma findIdx_eq_of_nodup (l : List String) (i : Nat) (x : String) (hnd : l.Nodup)
    (hget : l.get? i = some x) : l.findIdx? (fun y => y = x) = some i := by
  have h := findIdx_go_eq_of_nodup l 0 i x hnd hget
  simpa using h

lemma sortKey_train_one (chars : List TrainChar) (outs : Nat → TrainOutcome)
    (hnd : (name_order chars).Nodup) (i : Nat) (hi : i < chars.length) :
    sortKey (name_order chars) (train_one i (chars.getD i {}) (outs i)) = i := by
  have hname := train_one_name i (chars.getD i {}) (outs i)
  have hci : chars.get? i = some (chars.getD i {}) := by
    cases hc : chars.get? i with
    | none =>
        have := List.get?_eq_none.mp hc
        omega
    | some c =>
        rw [List.getD_eq_get?, hc]
        rfl
  have hget : (name_order chars).get? i =
      some ((chars.getD i {}).name.getD ("char" ++ toString i)) := by
    unfold name_order
    rw [name_order_aux_get? chars 0 i, hci]
    simp
  unfold sortKey
  rw [hname, findIdx_eq_of_nodup _ i _ hnd hget]

/-- Claim C1 (amended): for every completion order (a permutation of the item
indices), the finished job is `done`, its results are a permutation of the
per-item results with one entry per item, and — provided the items' defaulted
names are pairwise distinct — the results list equals the per-item results in
submitted order. -/
theorem job_results_submitted_order (chars : List TrainChar) (outs : Nat → TrainOutcome)
    (order : List Nat) (hperm : List.Perm order (List.range chars.length)) :
    (run_training_background chars outs order).status = "done" ∧
    List.Perm (run_training_background chars outs order).results
      ((List.range chars.length).map fun i => train_one i (chars.getD i {}) (outs i)) ∧
    (run_training_background chars outs order).results.length = chars.length ∧
    ((name_order chars).Nodup →
      (run_training_background chars outs order).results =
        (List.range chars.length).map fun i => train_one i (chars.getD i {}) (outs i)) := by
  have hpm : List.Perm (order.map fun i => train_one i (chars.getD i {}) (outs i))
      ((List.range chars.length).map fun i => train_one i (chars.getD i {}) (outs i)) :=
    hperm.map _
  have hsortperm : List.Perm (run_training_background chars outs order).results
      (order.map fun i => train_one i (chars.getD i {}) (outs i)) := by
    unfold run_training_background
    exact List.perm_insertionSort _ _
  refine ⟨rfl, hsortperm.trans hpm, ?_, ?_⟩
  · rw [(hsortperm.trans hpm).length_eq, List.length_map, List.length_range]
  · intro hnd
    show List.insertionSort _ _ = _
    apply insertionSort_eq_of_strict (sortKey (name_order chars))
    · exact hpm
    · rw [List.pairwise_map]
      refine List.Pairwise.imp_of_mem ?_ (List.pairwise_lt_range _)
      intro a b ha hb hlt
      rw [sortKey_train_one chars outs hnd a (List.mem_range.mp ha),
          sortKey_train_one chars outs hnd b (List.mem_range.mp hb)]
      exact hlt

/-- Two submitted items sharing the name `A`, with distinguishable results. -/
def dupChars : List TrainChar := [{ name := some "A" }, { name := some "A" }]

/-- Item `i` trains successfully into LoRA `L<i>`. -/
def dupOuts : Nat → TrainOutcome :=
  fun i => .resp true (some ("L" ++ toString i)) none none none "" none

/-- Counterexample to C1 as stated: with two items both named `A` and
completion order `[1, 0]` (a permutation of the submitted indices), the
finalized results are not in submitted order — the name-keyed stable sort
cannot distinguish equal names, so ties stay in completion order. -/
theorem job_results_submitted_order_counterexample :
    List.Perm [1, 0] (List.range dupChars.length) ∧
    (run_training_background dupChars dupOuts [1, 0]).results ≠
      ((List.range dupChars.length).map fun i =>
        train_one i (dupChars.getD i {}) (dupOuts i)) := by
  constructor
  · decide
  · decide

/-- Four distinctly named items for the job-store witnesses. -/
def witChars : List TrainChar :=
  [{ name := some "A" }, { name := some "B" }, { name := some "C" }, { name := some "D" }]

/-- Item 1 raises a backend error; the other three succeed. -/
def witOuts : Nat → TrainOutcome :=
  fun i => if i = 1 then .exc "backend error"
           else .resp true none none none none "" none

/-- Witness for the amended C1: with distinct names and completion order
`[3, 1, 0, 2]`, the finalized results come back in submitted order. -/
theorem job_results_submitted_order_witness :
    (run_training_background witChars witOuts [3, 1, 0, 2]).results =
      ((List.range witChars.length).map fun i =>
        train_one i (witChars.getD i {}) (witOuts i)) :=
  (job_results_submitted_order witChars witOuts [3, 1, 0, 2] (by decide)).2.2.2 (by decide)

/-- Claim C5: an exception while processing one item is wrapped into that
item's record as `ok = false` with the error detail; every item's result is
present regardless of other items' failures; the job always finishes with
status `done` (never `error`); and the tally carried into the final message
counts exactly the successful items. -/
theorem job_failure_isolation (chars : List TrainChar) (outs : Nat → TrainOutcome)
    (order : List Nat) (hperm : List.Perm order (List.range chars.length)) :
    (run_training_background chars outs order).status = "done" ∧
    (∀ i e, outs i = .exc e →
      (train_one i (chars.getD i {}) (outs i)).ok = false ∧
      (train_one i (chars.getD i {}) (outs i)).error = some e) ∧
    (∀ j, j < chars.length →
      train_one j (chars.getD j {}) (outs j) ∈
        (run_training_background chars outs order).results) ∧
    (run_training_background chars outs order).total = chars.length ∧
    (run_training_background chars outs order).ok_count =
      ((List.range chars.length).filter fun i =>
        (train_one i (chars.getD i {}) (outs i)).ok).length := by
  refine ⟨rfl, ?_, ?_, ?_, ?_⟩
  · intro i e he
    rw [he]
    exact ⟨rfl, rfl⟩
  · intro j hj
    have hmem : j ∈ order := hperm.mem_iff.mpr (List.mem_range.mpr hj)
    have hmap : train_one j (chars.getD j {}) (outs j) ∈
        (order.map fun i => train_one i (chars.getD i {}) (outs i)) :=
      List.mem_map_of_mem _ hmem
    show _ ∈ List.insertionSort _ _
    exact (List.perm_insertionSort _ _).mem_iff.mpr hmap
  · show (order.map fun i => train_one i (chars.getD i {}) (outs i)).length = _
    rw [List.length_map, hperm.length_eq, List.length_range]
  · show ((order.map fun i => train_one i (chars.getD i {}) (outs i)).filter
        fun r => r.ok).length = _
    rw [← List.countP_eq_length_filter, ← List.countP_eq_length_filter, List.countP_map]
    exact hperm.countP_eq _

/-- Witness for C5: 4 items where item 1 raises a backend error — the job is
`done`, item 1 carries its error detail with `ok = false`, and 3 of 4 items
are tallied successful. -/
theorem job_failure_isolation_witness :
    (run_training_background witChars witOuts [2, 0, 3, 1]).status = "done" ∧
    (train_one 1 (witChars.getD 1 {}) (witOuts 1)).ok = false ∧
    (train_one 1 (witChars.getD 1 {}) (witOuts 1)).error = some "backend error" ∧
    (run_training_background witChars witOuts [2, 0, 3, 1]).ok_count =
      ((List.range witChars.length).filter fun i =>
        (train_one i (witChars.getD i {}) (witOuts i)).ok).length := by
  have h := job_failure_isolation witChars witOuts [2, 0, 3, 1] (by decide)
  exact ⟨h.1, (h.2.1 1 "backend error" (by rfl)).1,
    (h.2.1 1 "backend error" (by rfl)).2, h.2.2.2.2⟩

/-- A dialogue log entry (`messages` element of the multi-agent graph
state). -/
structure DMsg where
  role : String
  speaker : String := ""
  character_id : Option String := none
  content : String := ""
  round : Nat := 0
deriving DecidableEq, Repr

/-- `sys_prompt(char, others)`: persona base prompt (falling back to the
generated one when `agent_system_prompt` is absent or empty), the last 10
knowledge notes, and the conversation context naming the other
participants. -/
def sys_prompt (char : Character) (others : List Character) : String :=
  let asp := char.agent_system_prompt.getD ""
  let base :=
    if asp = "" then
      "You are " ++ char.name ++ ", a " ++ char.age ++ " " ++ char.ethnicity ++ " " ++
        char.gender.getD "person" ++ ".\n" ++
        "Speak always as " ++ char.name ++ ". Never break character.\n"
    else asp
  let notes := char.knowledge_notes
  let base1 :=
    if notes ≠ [] then
      base ++ "\n\n## Accumulated Knowledge\n" ++
        joinSep "\n" ((notes.drop (notes.length - 10)).map fun n => "- " ++ n)
    else base
  if others ≠ [] then
    base1 ++ "\n\n## Conversation Context\nYou are in a discussion with: " ++
      joinSep ", " (others.map fun c => c.name) ++ ".\n" ++
      "Engage directly. Be concise (2-4 sentences). Stay in character. Do NOT narrate actions."
  else base1

/-- The `MultiState` of the dialogue graph. -/
structure MultiState where
  messages : List DMsg
  current_speaker_idx : Nat
  rounds_completed : Nat
  max_rounds : Nat
  characters : List Character
  llm_cfg : Option LLMProviderConfig

/-- One `character_<idx>` node of `make_char_node`: build the prompt from the
persona and the full log (other speakers quoted, own lines plain), invoke the
budget-aware router, append the reply tagged with the speaker and current
round, advance the speaker index circularly, and increment `rounds_completed`
exactly when the index wraps to 0. -/
def char_node_step (env : AgentEnv) (sb : Option BudgetStore) (st : MultiState) (idx : Nat) :
    MultiState × Option BudgetStore :=
  let chars := st.characters
  let char := chars.getD idx {}
  let others := (chars.enum.filter fun p => p.1 ≠ idx).map fun p => p.2
  let lc := LCMessage.system (sys_prompt char others) ::
    st.messages.filterMap fun m =>
      if m.role = "user" then some (LCMessage.human m.content)
      else if m.role = "assistant" then
        some (LCMessage.human ("[" ++ m.speaker ++ "]: " ++ m.content))
      else none
  let inv := invoke_with_role env char lc st.llm_cfg sb
  let next_idx := (idx + 1) % chars.length
  let completed := st.rounds_completed + (if next_idx = 0 then 1 else 0)
  ({ st with
      messages := st.messages ++
        [⟨"assistant", char.name, some char.id, inv.1.1, st.rounds_completed⟩],
      current_speaker_idx := next_idx,
      rounds_completed := completed }, inv.2)

/-- The graph driver: `router_fn` ends once `rounds_completed ≥ max_rounds`,
else dispatches `character_<current_speaker_idx>`; `fuel` bounds the number
of router visits. -/
def runDialogue (env : AgentEnv) :
    Nat → MultiState × Option BudgetStore → MultiState × Option BudgetStore
  | 0, s => s
  | fuel + 1, s =>
      if s.1.max_rounds ≤ s.1.rounds_completed then s
      else runDialogue env fuel (char_node_step env s.2 s.1 s.1.current_speaker_idx)

/-- `graph.invoke` on the initial state of the `/conversation` endpoint
(`current_speaker_idx = 0`, `rounds_completed = 0`), with enough fuel for the
full conversation. -/
def multi_graph_run (env : AgentEnv) (sb : Option BudgetStore) (chars : List Character)
    (llm_cfg : Option LLMProviderConfig) (seeds : List DMsg) (max_rounds : Nat) :
    MultiState × Option BudgetStore :=
  runDialogue env (max_rounds * chars.length + 1)
    ({ messages := seeds, current_speaker_idx := 0, rounds_completed := 0,
       max_rounds := max_rounds, characters := chars, llm_cfg := llm_cfg }, sb)

lemma char_node_step_fields (env : AgentEnv) (sb : Option BudgetStore) (st : MultiState)
    (idx : Nat) :
    (char_node_step env sb st idx).1.current_speaker_idx = (idx + 1) % st.characters.length ∧
    (char_node_step env sb st idx).1.rounds_completed =
      st.rounds_completed + (if (idx + 1) % st.characters.length = 0 then 1 else 0) ∧
    (char_node_step env sb st idx).1.max_rounds = st.max_rounds ∧
    (char_node_step env sb st idx).1.characters = st.characters ∧
    (char_node_step env sb st idx).1.messages.length = st.messages.length + 1 ∧
    ((char_node_step env sb st idx).1.messages.filter fun m => m.role = "assistant").length =
      (st.messages.filter fun m => m.role = "assistant").length + 1 := by
  refine ⟨rfl, rfl, rfl, rfl, ?_, ?_⟩
  · simp only [char_node_step]
    simp
  · simp only [char_node_step]
    rw [List.filter_append]
    simp

lemma runDialogue_max_eq (env : AgentEnv) :
    ∀ (fuel : Nat) (s : MultiState × Option BudgetStore),
      (runDialogue env fuel s).1.max_rounds = s.1.max_rounds := by
  intro fuel
  induction fuel with
  | zero => intro s; rfl
  | succ f ih =>
      intro s
      unfold runDialogue
      by_cases hh : s.1.max_rounds ≤ s.1.rounds_completed
      · rw [if_pos hh]
      · rw [if_neg hh, ih]
        exact (char_node_step_fields env s.2 s.1 s.1.current_speaker_idx).2.2.1

lemma runDialogue_rounds_le (env : AgentEnv) :
    ∀ (fuel : Nat) (s : MultiState × Option BudgetStore),
      s.1.rounds_completed ≤ s.1.max_rounds →
      (runDialogue env fuel s).1.rounds_completed ≤ (runDialogue env fuel s).1.max_rounds := by
  intro fuel
  induction fuel with
  | zero => intro s h; exact h
  | succ f ih =>
      intro s h
      unfold runDialogue
      by_cases hh : s.1.max_rounds ≤ s.1.rounds_completed
      · rw [if_pos hh]; exact h
      · rw [if_neg hh]
        apply ih
        obtain ⟨-, hr, hm, -, -, -⟩ :=
          char_node_step_fields env s.2 s.1 s.1.current_speaker_idx
        rw [hr, hm]
        by_cases hw : (s.1.current_speaker_idx + 1) % s.1.characters.length = 0 <;>
          simp [hw] <;> omega

lemma runDialogue_succ (env : AgentEnv) (fuel : Nat) (s : MultiState × Option BudgetStore)
    (h : ¬ s.1.max_rounds ≤ s.1.rounds_completed) :
    runDialogue env (fuel + 1) s =
      runDialogue env fuel (char_node_step env s.2 s.1 s.1.current_speaker_idx) := by
  conv_lhs => rw [runDialogue]
  rw [if_neg h]

lemma runDialogue_halt (env : AgentEnv) (fuel : Nat) (s : MultiState × Option BudgetStore)
    (h : s.1.max_rounds ≤ s.1.rounds_completed) :
    runDialogue env (fuel + 1) s = s := by
  conv_lhs => rw [runDialogue]
  rw [if_pos h]

/-- Measure-based completion: from any in-bounds state,
`(max - rounds) * P - idx` router steps finish the conversation with
`rounds_completed = max_rounds` and exactly that many appended assistant
messages. -/
lemma runDialogue_complete (env : AgentEnv) :
    ∀ (k : Nat) (st : MultiState) (sb : Option BudgetStore),
      0 < st.characters.length →
      st.current_speaker_idx < st.characters.length →
      st.rounds_completed ≤ st.max_rounds →
      (st.max_rounds - st.rounds_completed) * st.characters.length -
          st.current_speaker_idx = k →
      (runDialogue env (k + 1) (st, sb)).1.rounds_completed = st.max_rounds ∧
      (runDialogue env (k + 1) (st, sb)).1.messages.length = st.messages.length + k ∧
      ((runDialogue env (k + 1) (st, sb)).1.messages.filter
          fun m => m.role = "assistant").length =
        (st.messages.filter fun m => m.role = "assistant").length + k := by
  intro k
  induction k with
  | zero =>
      intro st sb hn hidx hle hmeas
      have hhalt : st.max_rounds ≤ st.rounds_completed := by
        by_contra hlt
        push_neg at hlt
        obtain ⟨m, hm⟩ : ∃ m, st.max_rounds - st.rounds_completed = m + 1 :=
          ⟨st.max_rounds - st.rounds_completed - 1, by omega⟩
        rw [hm, Nat.succ_mul] at hmeas
        omega
      rw [runDialogue_halt env 0 (st, sb) hhalt]
      refine ⟨?_, by simp, by simp⟩
      show st.rounds_completed = st.max_rounds
      omega
  | succ k ih =>
      intro st sb hn hidx hle hmeas
      have hlt : st.rounds_completed < st.max_rounds := by
        by_contra h
        push_neg at h
        have h0 : st.max_rounds - st.rounds_completed = 0 := by omega
        rw [h0, Nat.zero_mul] at hmeas
        omega
      rw [runDialogue_succ env (k + 1) (st, sb)
        (by show ¬ st.max_rounds ≤ st.rounds_completed; omega)]
      obtain ⟨hidx2, hr2, hm2, hc2, hlen2, hfil2⟩ :=
        char_node_step_fields env sb st st.current_speaker_idx
      rw [show char_node_step env sb st st.current_speaker_idx =
            ((char_node_step env sb st st.current_speaker_idx).1,
             (char_node_step env sb st st.current_speaker_idx).2) from rfl]
      obtain ⟨m, hm⟩ : ∃ m, st.max_rounds - st.rounds_completed = m + 1 :=
        ⟨st.max_rounds - st.rounds_completed - 1, by omega⟩
      have hmeas2 : ((char_node_step env sb st st.current_speaker_idx).1.max_rounds -
          (char_node_step env sb st st.current_speaker_idx).1.rounds_completed) *
            (char_node_step env sb st st.current_speaker_idx).1.characters.length -
          (char_node_step env sb st st.current_speaker_idx).1.current_speaker_idx = k := by
        rw [hidx2, hr2, hm2, hc2]
        by_cases hw : (st.current_speaker_idx + 1) % st.characters.length = 0
        · have hd : st.characters.length ∣ st.current_speaker_idx + 1 :=
            Nat.dvd_of_mod_eq_zero hw
          have hle2 : st.characters.length ≤ st.current_speaker_idx + 1 :=
            Nat.le_of_dvd (by omega) hd
          have hidxn : st.current_speaker_idx + 1 = st.characters.length := by omega
          rw [hw]
          simp only [if_true]
          have hsub : st.max_rounds - (st.rounds_completed + 1) = m := by omega
          rw [hsub]
          rw [hm, Nat.succ_mul] at hmeas
          omega
        · have hidxlt : st.current_speaker_idx + 1 < st.characters.length := by
            rcases Nat.lt_or_ge (st.current_speaker_idx + 1) st.characters.length with h | h
            · exact h
            · have he : st.current_speaker_idx + 1 = st.characters.length := by omega
              rw [he, Nat.mod_self] at hw
              exact absurd rfl hw
          rw [if_neg hw, Nat.mod_eq_of_lt hidxlt, Nat.add_zero]
          rw [hm, Nat.succ_mul] at hmeas ⊢
          omega
      have hle2b : (char_node_step env sb st st.current_speaker_idx).1.rounds_completed ≤
          (char_node_step env sb st st.current_speaker_idx).1.max_rounds := by
        rw [hr2, hm2]
        by_cases hw : (st.current_speaker_idx + 1) % st.characters.length = 0 <;>
          simp [hw] <;> omega
      have hn2 : 0 < (char_node_step env sb st st.current_speaker_idx).1.characters.length := by
        rw [hc2]; exact hn
      have hidx2b : (char_node_step env sb st st.current_speaker_idx).1.current_speaker_idx <
          (char_node_step env sb st st.current_speaker_idx).1.characters.length := by
        rw [hidx2, hc2]
        exact Nat.mod_lt _ hn
      obtain ⟨ihr, ihlen, ihfil⟩ := ih (char_node_step env sb st st.current_speaker_idx).1
        (char_node_step env sb st st.current_speaker_idx).2 hn2 hidx2b hle2b hmeas2
      refine ⟨?_, ?_, ?_⟩
      · rw [ihr, hm2]
      · rw [ihlen, hlen2]
        omega
      · rw [ihfil, hfil2]
        omega

/-- Claim C6: for 2–8 participants and `max_rounds = R`, each node advances
the speaker index circularly and increments `rounds_completed` exactly on
wrap-around to 0; the engine finishes with `rounds_completed = R`, appends
exactly `P*R` assistant messages to the user-role seeds, and
`rounds_completed` never exceeds `max_rounds` at any point of the run. -/
theorem dialogue_round_robin (env : AgentEnv) (sb : Option BudgetStore)
    (chars : List Character) (llm_cfg : Option LLMProviderConfig) (seeds : List DMsg) (R : Nat)
    (h2 : 2 ≤ chars.length) (h8 : chars.length ≤ 8)
    (hseeds : ∀ m ∈ seeds, m.role = "user") :
    (∀ (st : MultiState) (sb2 : Option BudgetStore) (idx : Nat),
      (char_node_step env sb2 st idx).1.current_speaker_idx =
        (idx + 1) % st.characters.length ∧
      (char_node_step env sb2 st idx).1.rounds_completed =
        st.rounds_completed + (if (idx + 1) % st.characters.length = 0 then 1 else 0)) ∧
    (multi_graph_run env sb chars llm_cfg seeds R).1.rounds_completed = R ∧
    (multi_graph_run env sb chars llm_cfg seeds R).1.messages.length =
      seeds.length + chars.length * R ∧
    ((multi_graph_run env sb chars llm_cfg seeds R).1.messages.filter
        fun m => m.role = "assistant").length = chars.length * R ∧
    (∀ fuel : Nat,
      (runDialogue env fuel
        ({ messages := seeds, current_speaker_idx := 0, rounds_completed := 0,
           max_rounds := R, characters := chars, llm_cfg := llm_cfg }, sb)).1.rounds_completed ≤
        R) := by
  have hn : 0 < chars.length := by omega
  have hseedfil : (seeds.filter fun m => m.role = "assistant").length = 0 := by
    rw [List.length_eq_zero, List.filter_eq_nil]
    intro m hm
    rw [hseeds m hm]
    decide
  have hcomp := runDialogue_complete env (R * chars.length)
    { messages := seeds, current_speaker_idx := 0, rounds_completed := 0,
      max_rounds := R, characters := chars, llm_cfg := llm_cfg } sb
    hn hn (Nat.zero_le R) (by simp)
  obtain ⟨hr, hlen, hfil⟩ := hcomp
  refine ⟨fun st sb2 idx => ⟨rfl, rfl⟩, hr, ?_, ?_, ?_⟩
  · show (runDialogue env (R * chars.length + 1) _).1.messages.length = _
    rw [hlen]
    show seeds.length + R * chars.length = seeds.length + chars.length * R
    rw [Nat.mul_comm]
  · show ((runDialogue env (R * chars.length + 1) _).1.messages.filter
        fun m => m.role = "assistant").length = _
    rw [hfil, hseedfil, Nat.zero_add, Nat.mul_comm]
  · intro fuel
    have hmax := runDialogue_max_eq env fuel
      ({ messages := seeds, current_speaker_idx := 0, rounds_completed := 0,
         max_rounds := R, characters := chars, llm_cfg := llm_cfg }, sb)
    have hle := runDialogue_rounds_le env fuel
      ({ messages := seeds, current_speaker_idx := 0, rounds_completed := 0,
         max_rounds := R, characters := chars, llm_cfg := llm_cfg }, sb)
      (Nat.zero_le _)
    rw [hmax] at hle
    exact hle

/-- Two participants used by the dialogue witness. -/
def dlgChars : List Character := [{ id := "1", name := "Ada" }, { id := "2", name := "Bo" }]

/-- Witness for C6: 2 participants, `max_rounds = 3` — exactly 6 assistant
messages and `rounds_completed = 3`. -/
theorem dialogue_round_robin_witness :
    (multi_graph_run envNoKeys none dlgChars none [] 3).1.rounds_completed = 3 ∧
    ((multi_graph_run envNoKeys none dlgChars none [] 3).1.messages.filter
        fun m => m.role = "assistant").length = 2 * 3 := by
  have h := dialogue_round_robin envNoKeys none dlgChars none [] 3
    (by decide) (by decide) (by intro m hm; cases hm)
  exact ⟨h.2.1, h.2.2.2.1⟩
